import Mathlib

/-!
Verification of the metadata-handling core of an image-to-WebP converter
script (`converter_jpg_to_webp.py`).

The Python values that flow through the metadata pipeline are embedded
shallowly as the inductive type `PyVal`; each Python function under test
(`clean_exif_data`, `get_creation_datetime_from_exif`,
`convert_bytes_for_json`, and the color-mode normalization inside
`convert_image_to_webp`) is translated into a Lean function over that
embedding, and the advertised properties are proved about those functions.
-/

/-- Shallow embedding of the Python values occurring in the metadata
pipeline.  Byte strings are lists of naturals below 256.  Floats and
foreign objects only ever pass through the functions under test unchanged
or stringified, so they carry their textual representation and nothing
else.  Dictionaries are association lists in insertion order, matching the
ordered dictionaries of Python 3. -/
inductive PyVal where
  | pyBytes : List Nat → PyVal
  | pyStr : String → PyVal
  | pyInt : Int → PyVal
  | pyBool : Bool → PyVal
  | pyFloat : String → PyVal
  | pyNone : PyVal
  | pyTuple : List PyVal → PyVal
  | pyList : List PyVal → PyVal
  | pyDict : List (PyVal × PyVal) → PyVal
  | pyOther : String → PyVal

mutual

/-- Structural equality test on `PyVal`, written by hand because automatic
derivation does not handle the nested `List` occurrences. -/
def pyValBEq : PyVal → PyVal → Bool
  | .pyBytes a, .pyBytes b => a == b
  | .pyStr a, .pyStr b => a == b
  | .pyInt a, .pyInt b => a == b
  | .pyBool a, .pyBool b => a == b
  | .pyFloat a, .pyFloat b => a == b
  | .pyNone, .pyNone => true
  | .pyTuple a, .pyTuple b => pyValListBEq a b
  | .pyList a, .pyList b => pyValListBEq a b
  | .pyDict a, .pyDict b => pyValPairsBEq a b
  | .pyOther a, .pyOther b => a == b
  | _, _ => false

def pyValListBEq : List PyVal → List PyVal → Bool
  | [], [] => true
  | x :: xs, y :: ys => pyValBEq x y && pyValListBEq xs ys
  | _, _ => false

def pyValPairsBEq : List (PyVal × PyVal) → List (PyVal × PyVal) → Bool
  | [], [] => true
  | (k, v) :: xs, (k', v') :: ys => pyValBEq k k' && pyValBEq v v' && pyValPairsBEq xs ys
  | _, _ => false

end


/-- A UTF-8 continuation byte: `0x80` to `0xBF`. -/
def contB (b : Nat) : Bool := 0x80 ≤ b && b ≤ 0xBF

/-- Parse one scalar value from the front of a byte list, following the
UTF-8 validation rules CPython uses (RFC 3629: overlong encodings,
surrogates and code points above `0x10FFFF` are invalid).  Returns the
decoded character (or `none` on an invalid sequence) together with the
number of bytes consumed; on an invalid sequence the count is the length
of the maximal valid subpart, the amount CPython's error handlers skip. -/
def utf8Parse1 : List Nat → Option Char × Nat
  | [] => (none, 1)
  | b1 :: rest =>
    if b1 ≤ 0x7F then (some (Char.ofNat b1), 1)
    else if 0xC2 ≤ b1 && b1 ≤ 0xDF then
      match rest with
      | b2 :: _ =>
        if contB b2 then (some (Char.ofNat ((b1 - 0xC0) * 64 + (b2 - 0x80))), 2)
        else (none, 1)
      | [] => (none, 1)
    else if 0xE0 ≤ b1 && b1 ≤ 0xEF then
      let lo2 := if b1 = 0xE0 then 0xA0 else 0x80
      let hi2 := if b1 = 0xED then 0x9F else 0xBF
      match rest with
      | b2 :: rest2 =>
        if lo2 ≤ b2 && b2 ≤ hi2 then
          match rest2 with
          | b3 :: _ =>
            if contB b3 then
              (some (Char.ofNat ((b1 - 0xE0) * 4096 + (b2 - 0x80) * 64 + (b3 - 0x80))), 3)
            else (none, 2)
          | [] => (none, 2)
        else (none, 1)
      | [] => (none, 1)
    else if 0xF0 ≤ b1 && b1 ≤ 0xF4 then
      let lo2 := if b1 = 0xF0 then 0x90 else 0x80
      let hi2 := if b1 = 0xF4 then 0x8F else 0xBF
      match rest with
      | b2 :: rest2 =>
        if lo2 ≤ b2 && b2 ≤ hi2 then
          match rest2 with
          | b3 :: rest3 =>
            if contB b3 then
              match rest3 with
              | b4 :: _ =>
                if contB b4 then
                  (some (Char.ofNat
                    ((b1 - 0xF0) * 262144 + (b2 - 0x80) * 4096 + (b3 - 0x80) * 64 + (b4 - 0x80))), 4)
                else (none, 3)
              | [] => (none, 3)
            else (none, 2)
          | [] => (none, 2)
        else (none, 1)
      | [] => (none, 1)
    else (none, 1)

/-- Error handling mode of Python's `bytes.decode("utf-8", errors=...)`:
`strict` raises on (here: returns `none` for) invalid input, `ignore`
silently drops the invalid bytes. -/
inductive Utf8Errors where
  | strict : Utf8Errors
  | ignore : Utf8Errors

/-- Decoding worker.  The fuel argument only bounds the recursion; it is
always called with fuel at least the length of the byte list, and
`utf8Parse1` consumes at least one byte per step, so the fuel never runs
out on such calls. -/
def utf8DecodeAux (mode : Utf8Errors) : Nat → List Nat → Option (List Char)
  | _, [] => some []
  | 0, _ :: _ => none
  | n + 1, b :: rest =>
    match utf8Parse1 (b :: rest) with
    | (some c, k) => (utf8DecodeAux mode n ((b :: rest).drop k)).map (fun cs => c :: cs)
    | (none, k) =>
      match mode with
      | .strict => none
      | .ignore => utf8DecodeAux mode n ((b :: rest).drop k)

/-- Model of Python's `bytes.decode("utf-8", errors=mode)`.  In `strict`
mode the result is `none` exactly when the bytes are not valid UTF-8 (a
`UnicodeDecodeError`); in `ignore` mode invalid byte runs are skipped. -/
def pyDecodeUtf8 (mode : Utf8Errors) (bs : List Nat) : Option (List Char) :=
  utf8DecodeAux mode bs.length bs

/-- UTF-8 encoding of one character (scalar value), as produced by
Python's `str.encode("utf-8")`. -/
def encodeChar (c : Char) : List Nat :=
  let n := c.toNat
  if n ≤ 0x7F then [n]
  else if n ≤ 0x7FF then [0xC0 + n / 64, 0x80 + n % 64]
  else if n ≤ 0xFFFF then [0xE0 + n / 4096, 0x80 + n / 64 % 64, 0x80 + n % 64]
  else [0xF0 + n / 262144, 0x80 + n / 4096 % 64, 0x80 + n / 64 % 64, 0x80 + n % 64]

/-- Model of Python's `str.encode("utf-8")`. -/
def utf8Encode (s : String) : List Nat := s.data.flatMap encodeChar

/-- Whitespace stripped by Python's `str.strip()`: ASCII whitespace, the
ASCII information separators, and the Latin-1 whitespace characters.
(The wider Unicode space classes, irrelevant to EXIF timestamp strings,
are omitted from the model.) -/
def pyIsSpace (c : Char) : Bool :=
  (9 ≤ c.toNat && c.toNat ≤ 13) || (28 ≤ c.toNat && c.toNat ≤ 32) ||
    c.toNat = 0x85 || c.toNat = 0xA0

/-- Model of Python's `str.strip()`. -/
def pyStrip (s : String) : String :=
  String.mk (((s.data.dropWhile pyIsSpace).reverse.dropWhile pyIsSpace).reverse)

/-- One lowercase hexadecimal digit. -/
def hexDigit (n : Nat) : Char :=
  if n < 10 then Char.ofNat (48 + n) else Char.ofNat (87 + n)

/-- Model of Python's `bytes.hex()`: two lowercase hex digits per byte. -/
def bytesHex (bs : List Nat) : List Char :=
  bs.flatMap (fun b => [hexDigit (b / 16 % 16), hexDigit (b % 16)])


/-! ## The EXIF sanitizer (`clean_exif_data`, source lines 19-87) -/

/-- An EXIF tree as produced by `piexif.load`: a Python dict from IFD group
name to group contents (normally a dict from numeric tag id to value, but
the `thumbnail` entry is a byte string or `None`). -/
abbrev ExifTree := List (String × PyVal)

/-- The fixed denylist of tag ids removed by the sanitizer
(source lines 34-41): the two color-space tag variants, the pixel
dimension tags, and the Exif/GPS sub-IFD pointer tags. -/
def problematic_tags : List Int := [41729, 40961, 40962, 40963, 34665, 34853]

/-- Python's `tag_id in problematic_tags` for a tag-id value.  A Python
`bool` equals `0` or `1` and therefore never matches the denylist; keys of
other types compare unequal to every `int` member.  (Python would also
match an equal `float` key, which cannot occur as a tag id.) -/
def isProblematicTag : PyVal → Bool
  | .pyInt n => problematic_tags.contains n
  | _ => false

def int32Min : Int := -2147483648

def int32Max : Int := 2147483647

/-- The signed 32-bit range check of source lines 68 and 73. -/
def inInt32Range (n : Int) : Bool := int32Min ≤ n && n ≤ int32Max

/-- Python's `isinstance(x, int)`, which is also true for `bool`. -/
def pyIsIntLike : PyVal → Bool
  | .pyInt _ => true
  | .pyBool _ => true
  | _ => false

/-- The integer value of an int-like Python value (`True` is `1`,
`False` is `0`). -/
def pyIntOf : PyVal → Int
  | .pyInt n => n
  | .pyBool b => if b then 1 else 0
  | _ => 0

/-- The per-tag filter of the sanitizer (source lines 48-74), returning
the zero or one entries the tag contributes to the cleaned group:
denylisted ids are dropped; byte strings are kept when the probing
`decode("utf-8", errors="ignore")` succeeds (which it always does, so the
`except: continue` at line 61 is dead code); text is re-encoded to UTF-8
bytes; integers are kept when in signed 32-bit range (a `bool` is the
integer `0` or `1`, always in range); tuples are kept when they hold
exactly two int-like members, both in range; every other kind is
dropped. -/
def cleanTag (tagId tagValue : PyVal) : List (PyVal × PyVal) :=
  if isProblematicTag tagId then []
  else
    match tagValue with
    | .pyBytes bs =>
      match pyDecodeUtf8 .ignore bs with
      | some _ => [(tagId, .pyBytes bs)]
      | none => []
    | .pyStr s => [(tagId, .pyBytes (utf8Encode s))]
    | .pyInt n => if inInt32Range n then [(tagId, .pyInt n)] else []
    | .pyBool b => [(tagId, .pyBool b)]
    | .pyTuple xs =>
      if xs.length == 2 && xs.all pyIsIntLike then
        if xs.all (fun x => inInt32Range (pyIntOf x)) then [(tagId, .pyTuple xs)] else []
      else []
    | _ => []

/-- The cleaned contents of one IFD group (the inner loop of source
lines 47-74). -/
def cleanIfd (entries : List (PyVal × PyVal)) : List (PyVal × PyVal) :=
  entries.flatMap (fun p => cleanTag p.1 p.2)

/-- One top-level entry of the cleaned tree (source lines 45-81): a dict
group is replaced by its cleaned contents and omitted when those are
empty; a non-dict entry is kept unchanged exactly when it is a byte
string, text, or integer (`bool` included, being a Python `int`). -/
def cleanTopEntry (key : String) (v : PyVal) : List (String × PyVal) :=
  match v with
  | .pyDict entries =>
    let cleaned := cleanIfd entries
    if cleaned.isEmpty then [] else [(key, .pyDict cleaned)]
  | .pyBytes _ => [(key, v)]
  | .pyStr _ => [(key, v)]
  | .pyInt _ => [(key, v)]
  | .pyBool _ => [(key, v)]
  | _ => []

/-- All surviving top-level entries of the cleaned tree. -/
def cleanTop (t : ExifTree) : ExifTree :=
  t.flatMap (fun p => cleanTopEntry p.1 p.2)

/-- `clean_exif_data` (source lines 19-87): `None` for a missing or empty
input tree (`if not exif_dict`), otherwise the cleaned tree, or `None`
when nothing survives filtering (`cleaned_dict if cleaned_dict else
None`).  No exception can escape the translated body, so the
`except`-returns-`None` branch at lines 85-87 never fires. -/
def clean_exif_data : Option ExifTree → Option ExifTree
  | none => none
  | some t =>
    if t.isEmpty then none
    else
      let cleaned := cleanTop t
      if cleaned.isEmpty then none else some cleaned

/-! ## The timestamp resolver (`get_creation_datetime_from_exif`,
source lines 135-173) -/

/-- Python `==` between a candidate tag key and an `int` tag id.  A `bool`
key equals its integer value; keys of non-numeric types compare unequal.
(An equal `float` key would also match in Python; floats never occur as
tag ids.) -/
def pyEqInt : PyVal → Int → Bool
  | .pyInt m, n => m == n
  | .pyBool b, n => (if b then (1 : Int) else 0) == n
  | _, _ => false

/-- Python's `tag_id in container` for an `int` tag id (source line 157).
Dicts test key membership; tuples and lists test element membership; byte
strings accept only ids in `0..255` and raise `ValueError` otherwise;
every other container type raises `TypeError`.  `.error` marks a raised
exception, which the resolver's blanket `except` turns into `None`. -/
def pyContains : PyVal → Int → Except Unit Bool
  | .pyDict entries, n => .ok (entries.any (fun p => pyEqInt p.1 n))
  | .pyTuple xs, n => .ok (xs.any (fun x => pyEqInt x n))
  | .pyList xs, n => .ok (xs.any (fun x => pyEqInt x n))
  | .pyBytes bs, n =>
    if 0 ≤ n && n ≤ 255 then .ok (bs.any (fun b => ((b : Int) == n))) else .error ()
  | _, _ => .error ()

/-- Python's `container[tag_id]` for an `int` tag id (source line 158).
Dicts look the key up; tuples and lists index (with negative-index
wrap-around), raising `IndexError` out of range; byte strings index to the
byte value; other types raise. -/
def pyGetItem : PyVal → Int → Except Unit PyVal
  | .pyDict entries, n =>
    match entries.find? (fun p => pyEqInt p.1 n) with
    | some p => .ok p.2
    | none => .error ()
  | .pyTuple xs, n =>
    let i := if n < 0 then n + xs.length else n
    if 0 ≤ i then
      match xs.get? i.toNat with
      | some x => .ok x
      | none => .error ()
    else .error ()
  | .pyList xs, n =>
    let i := if n < 0 then n + xs.length else n
    if 0 ≤ i then
      match xs.get? i.toNat with
      | some x => .ok x
      | none => .error ()
    else .error ()
  | .pyBytes bs, n =>
    let i := if n < 0 then n + bs.length else n
    if 0 ≤ i then
      match bs.get? i.toNat with
      | some b => .ok (.pyInt b)
      | none => .error ()
    else .error ()
  | _, _ => .error ()

/-- The placeholder timestamp treated as absent (source line 167). -/
def placeholderDT : String := "0000:00:00 00:00:00"

/-- The per-field usability test of source lines 159-168: byte strings are
decoded permissively and stripped, text is stripped, other types are
skipped; the result counts only when non-empty and different from the
all-zero placeholder. -/
def usableString : PyVal → Option String
  | .pyBytes bs =>
    match pyDecodeUtf8 .ignore bs with
    | some cs =>
      let s := pyStrip (String.mk cs)
      if s ≠ "" ∧ s ≠ placeholderDT then some s else none
    | none => none
  | .pyStr s0 =>
    let s := pyStrip s0
    if s ≠ "" ∧ s ≠ placeholderDT then some s else none
  | _ => none

/-- Outcome of probing one `(group name, tag id)` candidate. -/
inductive ProbeResult where
  | found : String → ProbeResult
  | nothing : ProbeResult
  | err : ProbeResult

/-- One iteration of the resolver loop (source lines 156-168): look the
group name up, test tag membership, fetch the value, and test usability.
A raised exception (non-dict group value, bad index) yields `.err`. -/
def probeOne (t : ExifTree) (name : String) (tagId : Int) : ProbeResult :=
  match t.find? (fun p => p.1 == name) with
  | none => .nothing
  | some (_, groupVal) =>
    match pyContains groupVal tagId with
    | .error _ => .err
    | .ok false => .nothing
    | .ok true =>
      match pyGetItem groupVal tagId with
      | .error _ => .err
      | .ok v =>
        match usableString v with
        | some s => .found s
        | none => .nothing

/-- The resolver loop over the candidate list.  An exception anywhere
aborts the whole loop; the enclosing `except` then reaches the final
`return None` (source lines 170-173). -/
def resolveLoop (t : ExifTree) : List (String × Int) → Option String
  | [] => none
  | (name, tagId) :: rest =>
    match probeOne t name tagId with
    | .found s => some s
    | .nothing => resolveLoop t rest
    | .err => none

/-- The fixed probe order of source lines 150-154:
`DateTimeOriginal` (36867) and `DateTimeDigitized` (36868) in the `Exif`
IFD, then `DateTime` (306) in the `0th` IFD. -/
def datetime_tags : List (String × Int) := [("Exif", 36867), ("Exif", 36868), ("0th", 306)]

/-- `get_creation_datetime_from_exif` (source lines 135-173). -/
def get_creation_datetime_from_exif : Option ExifTree → Option String
  | none => none
  | some t => if t.isEmpty then none else resolveLoop t datetime_tags

/-- The claimed field lookup, following the spec wording: a field exists
when the group name maps to a mapping containing the tag id. -/
def specFieldLookup (t : ExifTree) (name : String) (tagId : Int) : Option PyVal :=
  match t.find? (fun p => p.1 == name) with
  | some (_, .pyDict g) => (g.find? (fun q => pyEqInt q.1 tagId)).map (fun q => q.2)
  | _ => none

/-- The timestamp resolver as the specification words it: the value of the
first field in the fixed order that decodes to a non-empty stripped string
different from the placeholder, `none` when the input is `none` or no
field yields a usable string.  Stated separately from
`get_creation_datetime_from_exif` so the two can be compared. -/
def spec_timestamp_resolver : Option ExifTree → Option String
  | none => none
  | some t =>
    (((specFieldLookup t "Exif" 36867).bind usableString).orElse
      (fun _ => ((specFieldLookup t "Exif" 36868).bind usableString).orElse
        (fun _ => (specFieldLookup t "0th" 306).bind usableString)))


/-! ## JSON-safe conversion (`convert_bytes_for_json`,
source lines 267-292) -/

/-- The single-quote character, written by code point throughout. -/
def squote : Char := Char.ofNat 39

/-- The backslash character. -/
def bslash : Char := Char.ofNat 92

/-- Escaping of one character inside Python's `repr` of a `str`
(backslash, quote, newline, carriage return, tab, then hex escapes for the
remaining control characters; printable characters stand for
themselves). -/
def escapeStrChar (c : Char) : List Char :=
  if c = bslash then [bslash, bslash]
  else if c = squote then [bslash, squote]
  else if c.toNat = 10 then [bslash, Char.ofNat 110]
  else if c.toNat = 13 then [bslash, Char.ofNat 114]
  else if c.toNat = 9 then [bslash, Char.ofNat 116]
  else if c.toNat < 32 || c.toNat = 127 then
    [bslash, Char.ofNat 120, hexDigit (c.toNat / 16 % 16), hexDigit (c.toNat % 16)]
  else [c]

/-- Python's `repr` of a `str`, modeled with the default single-quote
form.  (CPython switches to double quotes when the text contains a single
quote and no double quote; that cosmetic rule is not modeled, and no
claim exercises it.) -/
def strRepr (s : String) : String :=
  String.mk (squote :: s.data.flatMap escapeStrChar ++ [squote])

/-- Escaping of one byte inside Python's `repr` of a `bytes` object. -/
def escapeByte (b : Nat) : List Char :=
  if b = 92 then [bslash, bslash]
  else if b = 39 then [bslash, squote]
  else if b = 10 then [bslash, Char.ofNat 110]
  else if b = 13 then [bslash, Char.ofNat 114]
  else if b = 9 then [bslash, Char.ofNat 116]
  else if 32 ≤ b && b ≤ 126 then [Char.ofNat b]
  else [bslash, Char.ofNat 120, hexDigit (b / 16 % 16), hexDigit (b % 16)]

/-- Python's `repr` of a `bytes` object, with the same single-quote
modeling note as `strRepr`. -/
def bytesRepr (bs : List Nat) : String :=
  String.mk (Char.ofNat 98 :: squote :: bs.flatMap escapeByte ++ [squote])

mutual

/-- Python's `repr`, used by `str()` on containers.  Foreign objects
(`pyOther`) carry their textual form directly. -/
def pyRepr : PyVal → String
  | .pyBytes bs => bytesRepr bs
  | .pyStr s => strRepr s
  | .pyInt n => toString n
  | .pyBool b => if b then "True" else "False"
  | .pyFloat f => f
  | .pyNone => "None"
  | .pyTuple xs =>
    "(" ++ String.intercalate ", " (pyReprList xs) ++
      (if xs.length == 1 then ",)" else ")")
  | .pyList xs => "[" ++ String.intercalate ", " (pyReprList xs) ++ "]"
  | .pyDict e => "\x7b" ++ String.intercalate ", " (pyReprPairs e) ++ "\x7d"
  | .pyOther s => s

def pyReprList : List PyVal → List String
  | [] => []
  | x :: xs => pyRepr x :: pyReprList xs

def pyReprPairs : List (PyVal × PyVal) → List String
  | [] => []
  | (k, v) :: r => (pyRepr k ++ ": " ++ pyRepr v) :: pyReprPairs r

end

/-- Python's `str()`: the text itself for a `str`, `repr` otherwise
(no object in the pipeline overrides `__str__`). -/
def pyStrFn : PyVal → String
  | .pyStr s => s
  | v => pyRepr v

/-- The placeholder produced for undecodable bytes (source line 283):
byte length plus a hex preview truncated to 50 hex characters, with an
ellipsis when the full hex form is longer. -/
def bytesPlaceholder (bs : List Nat) : String :=
  "<bytes:" ++ toString bs.length ++ ":" ++ String.mk ((bytesHex bs).take 50) ++
    (if 50 < (bytesHex bs).length then "..." else "") ++ ">"

mutual

/-- `convert_bytes_for_json` (source lines 267-292): bytes become their
strict UTF-8 decoding, or the hex-preview placeholder on a
`UnicodeDecodeError`; dicts recurse with stringified keys; lists and
tuples recurse into lists; ints, floats, strings, booleans and `None`
pass through; anything else is stringified. -/
def convert_bytes_for_json : PyVal → PyVal
  | .pyBytes bs =>
    match pyDecodeUtf8 .strict bs with
    | some cs => .pyStr (String.mk cs)
    | none => .pyStr (bytesPlaceholder bs)
  | .pyDict e => .pyDict (convertPairs e)
  | .pyList xs => .pyList (convertList xs)
  | .pyTuple xs => .pyList (convertList xs)
  | .pyInt n => .pyInt n
  | .pyFloat f => .pyFloat f
  | .pyStr s => .pyStr s
  | .pyBool b => .pyBool b
  | .pyNone => .pyNone
  | .pyOther s => .pyStr s

def convertList : List PyVal → List PyVal
  | [] => []
  | x :: xs => convert_bytes_for_json x :: convertList xs

def convertPairs : List (PyVal × PyVal) → List (PyVal × PyVal)
  | [] => []
  | (k, v) :: r => (.pyStr (pyStrFn k), convert_bytes_for_json v) :: convertPairs r

end

mutual

/-- JSON-serializable shapes: strings, ints, floats, booleans, `None`,
lists of such values and dicts with string keys and such values.  Bytes,
tuples and foreign objects are not JSON-serializable. -/
def jsonSafe : PyVal → Bool
  | .pyBytes _ => false
  | .pyTuple _ => false
  | .pyOther _ => false
  | .pyDict e => jsonSafePairs e
  | .pyList xs => jsonSafeList xs
  | _ => true

def jsonSafeList : List PyVal → Bool
  | [] => true
  | x :: xs => jsonSafe x && jsonSafeList xs

def jsonSafePairs : List (PyVal × PyVal) → Bool
  | [] => true
  | (k, v) :: r =>
    (match k with | .pyStr _ => true | _ => false) && jsonSafe v && jsonSafePairs r

end

/-! ## Color-mode normalization (`convert_image_to_webp`,
source lines 214-226) -/

/-- The color-mode normalization of the converter, at the level of the
image mode string: the decision tree of source lines 216-226, with
`hasTransparency` standing for `"transparency" in img.info`.  The
already-`RGB`/`RGBA` branches keep the image content unchanged (the
`RGBA`-mode image passes through an identity `convert("RGBA")`). -/
def normalizeMode (mode : String) (hasTransparency : Bool) : String :=
  if mode == "RGBA" || mode == "LA" then "RGBA"
  else if mode == "P" then (if hasTransparency then "RGBA" else "RGB")
  else if !(mode == "RGB" || mode == "RGBA") then "RGB"
  else mode


/-- A tag pair the sanitizer keeps verbatim, as the round-trip property
describes a valid, non-denylisted, in-range field: a byte-string value, an
in-range integer (a `bool` being the integer `0` or `1`), or a tuple of
exactly two int-like components both in range.  (A text value is *not*
verbatim: the sanitizer re-encodes it to bytes.) -/
def validTagPair (p : PyVal × PyVal) : Bool :=
  !isProblematicTag p.1 &&
    (match p.2 with
     | .pyBytes _ => true
     | .pyInt n => inInt32Range n
     | .pyBool _ => true
     | .pyTuple xs =>
       xs.length == 2 && xs.all pyIsIntLike && xs.all (fun x => inInt32Range (pyIntOf x))
     | _ => false)

/-- A top-level entry the sanitizer keeps verbatim: a non-empty group of
verbatim-kept tags, or a basic passthrough value. -/
def validTopEntry (p : String × PyVal) : Bool :=
  match p.2 with
  | .pyDict entries => !entries.isEmpty && entries.all validTagPair
  | .pyBytes _ => true
  | .pyStr _ => true
  | .pyInt _ => true
  | .pyBool _ => true
  | _ => false

/-- The types a non-mapping top-level entry may have to be passed through
(source line 80): Python `bytes`, `str` or `int` (`bool` included, being a
Python `int`). -/
def isBasicTop : PyVal → Bool
  | .pyBytes _ => true
  | .pyStr _ => true
  | .pyInt _ => true
  | .pyBool _ => true
  | _ => false

/-- A value that is a Python mapping. -/
def isDictVal : PyVal → Bool
  | .pyDict _ => true
  | _ => false

/-! ## Supporting lemmas -/

mutual

theorem pyValBEq_sound : ∀ a b : PyVal, pyValBEq a b = true → a = b := by
  intro a b h
  cases a <;> cases b <;> simp_all [pyValBEq]
  case pyTuple.pyTuple x y => exact pyValListBEq_sound x y h
  case pyList.pyList x y => exact pyValListBEq_sound x y h
  case pyDict.pyDict x y => exact pyValPairsBEq_sound x y h

theorem pyValListBEq_sound : ∀ a b : List PyVal, pyValListBEq a b = true → a = b := by
  intro a b h
  match a, b with
  | [], [] => rfl
  | [], _ :: _ => exact absurd h (by simp [pyValListBEq])
  | _ :: _, [] => exact absurd h (by simp [pyValListBEq])
  | x :: xs, y :: ys =>
    simp only [pyValListBEq, Bool.and_eq_true] at h
    rw [pyValBEq_sound x y h.1, pyValListBEq_sound xs ys h.2]

theorem pyValPairsBEq_sound :
    ∀ a b : List (PyVal × PyVal), pyValPairsBEq a b = true → a = b := by
  intro a b h
  match a, b with
  | [], [] => rfl
  | [], _ :: _ => exact absurd h (by simp [pyValPairsBEq])
  | _ :: _, [] => exact absurd h (by simp [pyValPairsBEq])
  | (k, v) :: xs, (k', v') :: ys =>
    simp only [pyValPairsBEq, Bool.and_eq_true] at h
    rw [pyValBEq_sound k k' h.1.1, pyValBEq_sound v v' h.1.2,
      pyValPairsBEq_sound xs ys h.2]

end

mutual

theorem pyValBEq_refl : ∀ a : PyVal, pyValBEq a a = true := by
  intro a
  cases a <;> simp_all [pyValBEq]
  case pyTuple x => exact pyValListBEq_refl x
  case pyList x => exact pyValListBEq_refl x
  case pyDict x => exact pyValPairsBEq_refl x

theorem pyValListBEq_refl : ∀ a : List PyVal, pyValListBEq a a = true := by
  intro a
  cases a <;> simp_all [pyValListBEq]
  case cons x xs => exact ⟨pyValBEq_refl x, pyValListBEq_refl xs⟩

theorem pyValPairsBEq_refl : ∀ a : List (PyVal × PyVal), pyValPairsBEq a a = true := by
  intro a
  cases a <;> simp_all [pyValPairsBEq]
  case cons x xs => exact ⟨⟨pyValBEq_refl x.1, pyValBEq_refl x.2⟩, pyValPairsBEq_refl xs⟩

end

instance : DecidableEq PyVal := fun a b =>
  if h : pyValBEq a b = true then .isTrue (pyValBEq_sound a b h)
  else .isFalse (fun e => h (e ▸ pyValBEq_refl a))

-- Sanity checks of the UTF-8 model on concrete data.
example : pyDecodeUtf8 .strict (utf8Encode "hello") = some "hello".data := by decide
example : pyDecodeUtf8 .strict [0xFF, 0xFE] = none := by decide
example : pyDecodeUtf8 .ignore [0xFF, 104, 105] = some "hi".data := by decide
example : utf8Encode "é" = [0xC3, 0xA9] := by decide
example : pyDecodeUtf8 .strict [0xC3, 0xA9] = some "é".data := by decide
example : pyDecodeUtf8 .strict [0xED, 0xA0, 0x80] = none := by decide
example : String.mk (bytesHex [0xDE, 0xAD, 0x01]) = "dead01" := by decide
example : pyStrip " 2020:01:01 10:00:00  " = "2020:01:01 10:00:00" := by decide

-- Sanity checks of the sanitizer and resolver on concrete data.
example :
    clean_exif_data (some [("0th", .pyDict [(.pyInt 34665, .pyInt 7), (.pyInt 306, .pyInt 9)])]) =
      some [("0th", .pyDict [(.pyInt 306, .pyInt 9)])] := by decide
example :
    clean_exif_data (some [("Exif", .pyDict [(.pyInt 33434, .pyTuple [.pyInt 1, .pyInt 2147483648])])]) =
      none := by decide
example :
    clean_exif_data (some [("0th", .pyDict [(.pyInt 271, .pyStr "Acme")])]) =
      some [("0th", .pyDict [(.pyInt 271, .pyBytes [65, 99, 109, 101])])] := by decide
example :
    get_creation_datetime_from_exif
      (some [("Exif", .pyDict [(.pyInt 36867, .pyBytes (utf8Encode "2020:01:01 10:00:00"))]),
             ("0th", .pyDict [(.pyInt 306, .pyBytes (utf8Encode "2021:05:05 05:05:05"))])]) =
      some "2020:01:01 10:00:00" := by decide
example :
    get_creation_datetime_from_exif
      (some [("0th", .pyDict [(.pyInt 306, .pyBytes (utf8Encode placeholderDT))])]) = none := by
  decide

-- Sanity checks on concrete data.
example :
    convert_bytes_for_json (.pyBytes (utf8Encode "hello")) = .pyStr "hello" := by decide
example :
    convert_bytes_for_json (.pyBytes [0xFF, 0xFE]) = .pyStr "<bytes:2:fffe>" := by decide
example :
    convert_bytes_for_json (.pyDict [(.pyInt 3, .pyTuple [.pyBytes [0x68], .pyNone])]) =
      .pyDict [(.pyStr "3", .pyList [.pyStr "h", .pyNone])] := by decide
example : normalizeMode "L" false = "RGB" := by decide
example : normalizeMode "P" true = "RGBA" := by decide
example : normalizeMode "RGB" false = "RGB" := by decide

/-- `utf8Parse1` always consumes at least one byte. -/
theorem utf8Parse1_pos (l : List Nat) : 1 ≤ (utf8Parse1 l).2 := by
  unfold utf8Parse1
  repeat' split
  all_goals (try simp)
  all_goals (split <;> simp)

/-- With `errors="ignore"` the decoder always succeeds, provided the fuel
covers the input length. -/
theorem utf8DecodeAux_ignore_total :
    ∀ (n : Nat) (l : List Nat), l.length ≤ n →
      ∃ cs, utf8DecodeAux .ignore n l = some cs := by
  intro n
  induction n with
  | zero =>
    intro l hl
    have : l = [] := List.length_eq_zero.mp (Nat.le_zero.mp hl)
    subst this
    exact ⟨[], rfl⟩
  | succ n ih =>
    intro l hl
    match l with
    | [] => exact ⟨[], rfl⟩
    | b :: rest =>
      rcases hp : utf8Parse1 (b :: rest) with ⟨oc, k⟩
      have hk : 1 ≤ k := by
        have h := utf8Parse1_pos (b :: rest)
        rw [hp] at h
        exact h
      have hlen : ((b :: rest).drop k).length ≤ n := by
        simp only [List.length_drop, List.length_cons] at *
        omega
      cases oc with
      | some c =>
        obtain ⟨cs, hcs⟩ := ih _ hlen
        exact ⟨c :: cs, by simp [utf8DecodeAux, hp, hcs]⟩
      | none =>
        obtain ⟨cs, hcs⟩ := ih _ hlen
        exact ⟨cs, by simp [utf8DecodeAux, hp, hcs]⟩

/-- Python's `decode("utf-8", errors="ignore")` never raises: the probing
decode at source line 59 always succeeds, so the `except: continue` at
line 61 can never drop a tag. -/
theorem pyDecodeUtf8_ignore_total (bs : List Nat) :
    ∃ cs, pyDecodeUtf8 .ignore bs = some cs :=
  utf8DecodeAux_ignore_total bs.length bs le_rfl

/-- Inversion of the per-tag filter: every surviving entry keeps the tag
id, the id is not denylisted, and the value has one of the five kept
shapes. -/
theorem cleanTag_inv {tagId tagValue : PyVal} {p : PyVal × PyVal}
    (hp : p ∈ cleanTag tagId tagValue) :
    p.1 = tagId ∧ isProblematicTag tagId = false ∧
      ((∃ bs, tagValue = .pyBytes bs ∧ p.2 = .pyBytes bs) ∨
       (∃ s, tagValue = .pyStr s ∧ p.2 = .pyBytes (utf8Encode s)) ∨
       (∃ n, tagValue = .pyInt n ∧ p.2 = .pyInt n ∧ inInt32Range n = true) ∨
       (∃ b, tagValue = .pyBool b ∧ p.2 = .pyBool b) ∨
       (∃ xs, tagValue = .pyTuple xs ∧ p.2 = .pyTuple xs ∧
         (xs.length == 2 && xs.all pyIsIntLike) = true ∧
         xs.all (fun x => inInt32Range (pyIntOf x)) = true)) := by
  cases htag : isProblematicTag tagId with
  | true => simp [cleanTag, htag] at hp
  | false =>
    cases tagValue with
    | pyBytes bs =>
      obtain ⟨cs, hcs⟩ := pyDecodeUtf8_ignore_total bs
      simp [cleanTag, htag, hcs] at hp
      subst hp
      exact ⟨rfl, rfl, .inl ⟨bs, rfl, rfl⟩⟩
    | pyStr s =>
      simp [cleanTag, htag] at hp
      subst hp
      exact ⟨rfl, rfl, .inr (.inl ⟨s, rfl, rfl⟩)⟩
    | pyInt n =>
      cases hr : inInt32Range n with
      | true =>
        simp [cleanTag, htag, hr] at hp
        subst hp
        exact ⟨rfl, rfl, .inr (.inr (.inl ⟨n, rfl, rfl, hr⟩))⟩
      | false => simp [cleanTag, htag, hr] at hp
    | pyBool b =>
      simp [cleanTag, htag] at hp
      subst hp
      exact ⟨rfl, rfl, .inr (.inr (.inr (.inl ⟨b, rfl, rfl⟩)))⟩
    | pyTuple xs =>
      cases hc1 : (xs.length == 2 && xs.all pyIsIntLike) with
      | true =>
        cases hc2 : xs.all (fun x => inInt32Range (pyIntOf x)) with
        | true =>
          simp [cleanTag, htag, hc1, hc2] at hp
          subst hp
          exact ⟨rfl, rfl, .inr (.inr (.inr (.inr ⟨xs, rfl, rfl, hc1, hc2⟩)))⟩
        | false => simp [cleanTag, htag, hc1, hc2] at hp
      | false => simp [cleanTag, htag, hc1] at hp
    | pyFloat f => simp [cleanTag, htag] at hp
    | pyNone => simp [cleanTag, htag] at hp
    | pyList xs => simp [cleanTag, htag] at hp
    | pyDict e => simp [cleanTag, htag] at hp
    | pyOther s => simp [cleanTag, htag] at hp

/-- Every surviving tag entry is a fixed point of the per-tag filter. -/
theorem cleanTag_stable {tagId tagValue : PyVal} {p : PyVal × PyVal}
    (hp : p ∈ cleanTag tagId tagValue) : cleanTag p.1 p.2 = [p] := by
  obtain ⟨hid, htag, hshape⟩ := cleanTag_inv hp
  obtain ⟨pid, pv⟩ := p
  simp only at hid hshape
  subst hid
  rcases hshape with ⟨bs, _, hv⟩ | ⟨s, _, hv⟩ | ⟨n, _, hv, hr⟩ | ⟨b, _, hv⟩ |
    ⟨xs, _, hv, hc1, hc2⟩
  · subst hv
    obtain ⟨cs, hcs⟩ := pyDecodeUtf8_ignore_total bs
    simp [cleanTag, htag, hcs]
  · subst hv
    obtain ⟨cs, hcs⟩ := pyDecodeUtf8_ignore_total (utf8Encode s)
    simp [cleanTag, htag, hcs]
  · subst hv
    simp [cleanTag, htag, hr]
  · subst hv
    simp [cleanTag, htag]
  · subst hv
    simp [cleanTag, htag, hc1, hc2]

/-- A list mapped entrywise to singletons through `f` is unchanged. -/
theorem flatMap_eq_self {α : Type} {f : α → List α} {l : List α}
    (h : ∀ p ∈ l, f p = [p]) : l.flatMap f = l := by
  induction l with
  | nil => rfl
  | cons a as ih =>
    rw [List.flatMap_cons, h a (List.mem_cons_self a as),
      ih (fun p hp => h p (List.mem_cons_of_mem a hp))]
    rfl

/-- Entrywise filters whose survivors are fixed points are idempotent. -/
theorem flatMap_idem {α : Type} {f : α → List α}
    (hf : ∀ a b, b ∈ f a → f b = [b]) (l : List α) :
    (l.flatMap f).flatMap f = l.flatMap f := by
  apply flatMap_eq_self
  intro p hp
  rw [List.mem_flatMap] at hp
  obtain ⟨a, _, hpa⟩ := hp
  exact hf a p hpa

/-- Cleaning a group twice equals cleaning it once. -/
theorem cleanIfd_idem (entries : List (PyVal × PyVal)) :
    cleanIfd (cleanIfd entries) = cleanIfd entries :=
  flatMap_idem (fun _ _ hb => cleanTag_stable hb) entries

/-- Every surviving top-level entry is a fixed point of the top-level
filter. -/
theorem cleanTopEntry_stable {k : String} {v : PyVal} {q : String × PyVal}
    (hq : q ∈ cleanTopEntry k v) : cleanTopEntry q.1 q.2 = [q] := by
  obtain ⟨qk, qv⟩ := q
  cases v with
  | pyDict entries =>
    cases hce : cleanIfd entries with
    | nil => simp [cleanTopEntry, hce] at hq
    | cons a as =>
      simp [cleanTopEntry, hce] at hq
      obtain ⟨hk, hv⟩ := hq
      subst hk
      subst hv
      have hfix : cleanIfd (a :: as) = a :: as := by
        rw [← hce]
        exact cleanIfd_idem entries
      simp [cleanTopEntry, hfix]
  | pyBytes bs =>
    simp [cleanTopEntry] at hq
    obtain ⟨hk, hv⟩ := hq
    subst hk
    subst hv
    simp [cleanTopEntry]
  | pyStr s =>
    simp [cleanTopEntry] at hq
    obtain ⟨hk, hv⟩ := hq
    subst hk
    subst hv
    simp [cleanTopEntry]
  | pyInt n =>
    simp [cleanTopEntry] at hq
    obtain ⟨hk, hv⟩ := hq
    subst hk
    subst hv
    simp [cleanTopEntry]
  | pyBool b =>
    simp [cleanTopEntry] at hq
    obtain ⟨hk, hv⟩ := hq
    subst hk
    subst hv
    simp [cleanTopEntry]
  | pyFloat f => simp [cleanTopEntry] at hq
  | pyNone => simp [cleanTopEntry] at hq
  | pyTuple xs => simp [cleanTopEntry] at hq
  | pyList xs => simp [cleanTopEntry] at hq
  | pyOther s => simp [cleanTopEntry] at hq

/-- Cleaning the whole tree twice equals cleaning it once. -/
theorem cleanTop_idem (t : ExifTree) : cleanTop (cleanTop t) = cleanTop t :=
  flatMap_idem (fun _ _ hb => cleanTopEntry_stable hb) t

/-- A verbatim-valid tag pair passes the per-tag filter unchanged. -/
theorem cleanTag_of_valid {p : PyVal × PyVal} (h : validTagPair p = true) :
    cleanTag p.1 p.2 = [p] := by
  obtain ⟨tagId, v⟩ := p
  simp only [validTagPair, Bool.and_eq_true, Bool.not_eq_true'] at h
  obtain ⟨htag, hv⟩ := h
  cases v with
  | pyBytes bs =>
    obtain ⟨cs, hcs⟩ := pyDecodeUtf8_ignore_total bs
    simp [cleanTag, htag, hcs]
  | pyInt n => simp_all [cleanTag, htag]
  | pyBool b => simp [cleanTag, htag]
  | pyTuple xs =>
    simp only [Bool.and_eq_true] at hv
    simp [cleanTag, htag, hv.1.1, hv.1.2, hv.2]
  | pyStr s => simp at hv
  | pyFloat f => simp at hv
  | pyNone => simp at hv
  | pyList xs => simp at hv
  | pyDict e => simp at hv
  | pyOther s => simp at hv

/-- A verbatim-valid top-level entry passes the top-level filter
unchanged. -/
theorem cleanTopEntry_of_valid {p : String × PyVal} (h : validTopEntry p = true) :
    cleanTopEntry p.1 p.2 = [p] := by
  obtain ⟨k, v⟩ := p
  cases v with
  | pyDict entries =>
    simp only [validTopEntry, Bool.and_eq_true, Bool.not_eq_true'] at h
    have hfix : cleanIfd entries = entries := by
      apply flatMap_eq_self
      intro q hq
      exact cleanTag_of_valid ((List.all_eq_true.mp h.2) q hq)
    cases entries with
    | nil => simp [List.isEmpty] at h
    | cons a as => simp [cleanTopEntry, hfix]
  | pyBytes bs => simp [cleanTopEntry]
  | pyStr s => simp [cleanTopEntry]
  | pyInt n => simp [cleanTopEntry]
  | pyBool b => simp [cleanTopEntry]
  | pyFloat f => simp [validTopEntry] at h
  | pyNone => simp [validTopEntry] at h
  | pyTuple xs => simp [validTopEntry] at h
  | pyList xs => simp [validTopEntry] at h
  | pyOther s => simp [validTopEntry] at h

/-- Inversion of `clean_exif_data`: a non-`None` result is the cleaned
tree of a non-empty input tree. -/
theorem clean_exif_data_eq_some {x : Option ExifTree} {d : ExifTree}
    (h : clean_exif_data x = some d) :
    ∃ t, x = some t ∧ d = cleanTop t ∧ t.isEmpty = false ∧ (cleanTop t).isEmpty = false := by
  cases x with
  | none => exact absurd h (by simp [clean_exif_data])
  | some t =>
    refine ⟨t, rfl, ?_⟩
    cases ht : t.isEmpty with
    | true => rw [clean_exif_data, if_pos ht] at h; exact absurd h (by simp)
    | false =>
      rw [clean_exif_data, if_neg (by simp [ht])] at h
      cases hc : (cleanTop t).isEmpty with
      | true => simp [hc] at h
      | false =>
        simp only [hc, Bool.false_eq_true, if_false, Option.some_inj] at h
        exact ⟨h.symm, rfl, rfl⟩

/-- A group mapping in the cleaned tree is the cleaned form of a group of
the input tree. -/
theorem mem_cleanTopEntry_dict {k' : String} {v : PyVal} {k : String}
    {g : List (PyVal × PyVal)} (h : (k, PyVal.pyDict g) ∈ cleanTopEntry k' v) :
    ∃ entries, v = .pyDict entries ∧ g = cleanIfd entries ∧ g ≠ [] := by
  cases v with
  | pyDict entries =>
    cases hce : cleanIfd entries with
    | nil => simp [cleanTopEntry, hce] at h
    | cons a as =>
      simp [cleanTopEntry, hce] at h
      exact ⟨entries, rfl, by rw [h.2, hce], by simp [h.2]⟩
  | pyBytes bs => simp [cleanTopEntry] at h
  | pyStr s => simp [cleanTopEntry] at h
  | pyInt n => simp [cleanTopEntry] at h
  | pyBool b => simp [cleanTopEntry] at h
  | pyFloat f => simp [cleanTopEntry] at h
  | pyNone => simp [cleanTopEntry] at h
  | pyTuple xs => simp [cleanTopEntry] at h
  | pyList xs => simp [cleanTopEntry] at h
  | pyOther s => simp [cleanTopEntry] at h

/-- Claim C1: for every EXIF tree passed to the sanitizer, no group
mapping of the sanitized output contains a tag whose id is in the fixed
denylist 41729, 40961, 40962, 40963, 34665, 34853. -/
theorem c1_denylist_removed :
    ∀ (x : Option ExifTree) (d : ExifTree), clean_exif_data x = some d →
      ∀ (k : String) (g : List (PyVal × PyVal)), (k, PyVal.pyDict g) ∈ d →
        ∀ p ∈ g, ∀ n ∈ problematic_tags, p.1 ≠ PyVal.pyInt n := by
  intro x d hx k g hkg p hp n hn heq
  obtain ⟨t, _, hd, _, _⟩ := clean_exif_data_eq_some hx
  subst hd
  rw [cleanTop, List.mem_flatMap] at hkg
  obtain ⟨q, _, hq⟩ := hkg
  obtain ⟨entries, _, hge, _⟩ := mem_cleanTopEntry_dict hq
  rw [hge, cleanIfd, List.mem_flatMap] at hp
  obtain ⟨r, _, hr⟩ := hp
  obtain ⟨hid, htag, _⟩ := cleanTag_inv hr
  rw [hid] at heq
  rw [heq] at htag
  have hcont : problematic_tags.contains n = true := List.elem_eq_true_of_mem hn
  rw [isProblematicTag] at htag
  rw [hcont] at htag
  exact Bool.true_eq_false.mp htag

/-- Witness for C1 at a concrete tree holding the denylisted Exif sub-IFD
pointer 34665 next to an ordinary tag. -/
theorem c1_witness :
    clean_exif_data
        (some [("0th", .pyDict [(.pyInt 34665, .pyInt 7), (.pyInt 306, .pyInt 9)])]) =
      some [("0th", .pyDict [(.pyInt 306, .pyInt 9)])] ∧
    (34665 : Int) ∈ problematic_tags ∧
    PyVal.pyInt 306 ≠ PyVal.pyInt 34665 := by
  refine ⟨by decide, by decide, ?_⟩
  exact c1_denylist_removed
    (some [("0th", .pyDict [(.pyInt 34665, .pyInt 7), (.pyInt 306, .pyInt 9)])])
    [("0th", .pyDict [(.pyInt 306, .pyInt 9)])] (by decide)
    "0th" [(.pyInt 306, .pyInt 9)] (by decide)
    (.pyInt 306, .pyInt 9) (by decide) 34665 (by decide)

/-- Claim C6: the sanitizer is idempotent, and every EXIF tree containing
only valid, non-denylisted, in-range fields (in the verbatim sense of
`validTopEntry`) sanitizes to an equal tree. -/
theorem c6_sanitizer_idempotent :
    (∀ x : Option ExifTree, clean_exif_data (clean_exif_data x) = clean_exif_data x) ∧
    (∀ t : ExifTree, t ≠ [] → t.all validTopEntry = true →
      clean_exif_data (some t) = some t) := by
  constructor
  · intro x
    cases hx : clean_exif_data x with
    | none => rfl
    | some d =>
      obtain ⟨t, _, hd, _, hc⟩ := clean_exif_data_eq_some hx
      have hfix : cleanTop d = d := by rw [hd]; exact cleanTop_idem t
      have hde : d.isEmpty = false := by rw [hd]; exact hc
      simp [clean_exif_data, hde, hfix]
  · intro t hne hall
    have hfix : cleanTop t = t :=
      flatMap_eq_self (fun p hp => cleanTopEntry_of_valid ((List.all_eq_true.mp hall) p hp))
    have hte : t.isEmpty = false := by
      cases t with
      | nil => exact absurd rfl hne
      | cons a as => rfl
    simp [clean_exif_data, hte, hfix]

/-- Witness for C6 at a concrete all-valid tree. -/
theorem c6_witness :
    clean_exif_data
        (some [("Exif", .pyDict [(.pyInt 33434, .pyTuple [.pyInt 1, .pyInt 125]),
                                 (.pyInt 36867, .pyBytes [50, 48])])]) =
      some [("Exif", .pyDict [(.pyInt 33434, .pyTuple [.pyInt 1, .pyInt 125]),
                              (.pyInt 36867, .pyBytes [50, 48])])] :=
  c6_sanitizer_idempotent.2
    [("Exif", .pyDict [(.pyInt 33434, .pyTuple [.pyInt 1, .pyInt 125]),
                       (.pyInt 36867, .pyBytes [50, 48])])]
    (by simp) (by decide)

/-- Claim C7: the sanitizer returns `None` exactly when the input is
`None`, empty, or nothing survives filtering; surviving group mappings are
never empty; and a non-mapping top-level entry passes through unchanged
exactly when it is a byte string, text or integer. -/
theorem c7_none_empty_passthrough :
    clean_exif_data none = none ∧
    (∀ t : ExifTree, clean_exif_data (some t) = none ↔ cleanTop t = []) ∧
    (∀ (x : Option ExifTree) (d : ExifTree), clean_exif_data x = some d →
      ∀ (k : String) (g : List (PyVal × PyVal)), (k, PyVal.pyDict g) ∈ d → g ≠ []) ∧
    (∀ (k : String) (v : PyVal), isBasicTop v = true → cleanTopEntry k v = [(k, v)]) ∧
    (∀ (k : String) (v : PyVal), isBasicTop v = false → (∀ g, v ≠ PyVal.pyDict g) →
      cleanTopEntry k v = []) := by
  refine ⟨rfl, ?_, ?_, ?_, ?_⟩
  · intro t
    cases t with
    | nil => simp [clean_exif_data, cleanTop]
    | cons a as =>
      cases hc : cleanTop (a :: as) with
      | nil => simp [clean_exif_data, hc]
      | cons b bs => simp [clean_exif_data, hc]
  · intro x d hx k g hkg
    obtain ⟨t, _, hd, _, _⟩ := clean_exif_data_eq_some hx
    subst hd
    rw [cleanTop, List.mem_flatMap] at hkg
    obtain ⟨q, _, hq⟩ := hkg
    obtain ⟨_, _, _, hne⟩ := mem_cleanTopEntry_dict hq
    exact hne
  · intro k v hv
    cases v with
    | pyBytes bs => rfl
    | pyStr s => rfl
    | pyInt n => rfl
    | pyBool b => rfl
    | pyFloat f => simp [isBasicTop] at hv
    | pyNone => simp [isBasicTop] at hv
    | pyTuple xs => simp [isBasicTop] at hv
    | pyList xs => simp [isBasicTop] at hv
    | pyDict e => simp [isBasicTop] at hv
    | pyOther s => simp [isBasicTop] at hv
  · intro k v hv hnd
    cases v with
    | pyBytes bs => simp [isBasicTop] at hv
    | pyStr s => simp [isBasicTop] at hv
    | pyInt n => simp [isBasicTop] at hv
    | pyBool b => simp [isBasicTop] at hv
    | pyFloat f => rfl
    | pyNone => rfl
    | pyTuple xs => rfl
    | pyList xs => rfl
    | pyDict e => exact absurd rfl (hnd e)
    | pyOther s => rfl

/-- Witness for C7: a tuple-valued top-level entry (not bytes, text or an
integer) is dropped; a text top-level entry passes through. -/
theorem c7_witness :
    cleanTopEntry "thumbnail" (.pyTuple [.pyInt 1]) = [] ∧
    cleanTopEntry "thumbnail" (.pyStr "x") = [("thumbnail", .pyStr "x")] :=
  ⟨c7_none_empty_passthrough.2.2.2.2 "thumbnail" (.pyTuple [.pyInt 1]) (by decide)
      (fun g h => by simp at h),
    c7_none_empty_passthrough.2.2.2.1 "thumbnail" (.pyStr "x") (by decide)⟩

/-- Claim C2: within a group, a non-denylisted integer-valued tag survives
sanitization exactly when it was present and its value lies in the signed
32-bit range, and it is kept with its value unchanged (membership of the
identical pair). -/
theorem c2_int_range :
    ∀ (entries : List (PyVal × PyVal)) (tagId : PyVal) (n : Int),
      isProblematicTag tagId = false →
      ((tagId, PyVal.pyInt n) ∈ cleanIfd entries ↔
        (tagId, PyVal.pyInt n) ∈ entries ∧ inInt32Range n = true) := by
  intro entries tagId n htag
  constructor
  · intro h
    rw [cleanIfd, List.mem_flatMap] at h
    obtain ⟨⟨q1, q2⟩, hqmem, hq⟩ := h
    obtain ⟨hid, _, hshape⟩ := cleanTag_inv hq
    simp only at hid
    subst hid
    rcases hshape with ⟨bs, hv, hp2⟩ | ⟨s, hv, hp2⟩ | ⟨m, hv, hp2, hr⟩ | ⟨b, hv, hp2⟩ |
      ⟨xs, hv, hp2, hx1, hx2⟩ <;> simp only at hv hp2
    · exact absurd hp2 (by simp)
    · exact absurd hp2 (by simp)
    · injection hp2 with hnm
      subst hnm
      subst hv
      exact ⟨hqmem, hr⟩
    · exact absurd hp2 (by simp)
    · exact absurd hp2 (by simp)
  · rintro ⟨hmem, hr⟩
    rw [cleanIfd, List.mem_flatMap]
    exact ⟨(tagId, .pyInt n), hmem, by simp [cleanTag, htag, hr]⟩

/-- Witness for C2: an in-range integer tag is kept with its value; the
out-of-range value 2147483648 is dropped. -/
theorem c2_witness :
    (PyVal.pyInt 305, PyVal.pyInt 100) ∈
      cleanIfd [(PyVal.pyInt 305, PyVal.pyInt 100)] ∧
    (PyVal.pyInt 305, PyVal.pyInt 2147483648) ∉
      cleanIfd [(PyVal.pyInt 305, PyVal.pyInt 2147483648)] :=
  ⟨(c2_int_range [(PyVal.pyInt 305, PyVal.pyInt 100)] (.pyInt 305) 100
      (by decide)).mpr ⟨by decide, by decide⟩,
    fun h =>
      absurd ((c2_int_range [(PyVal.pyInt 305, PyVal.pyInt 2147483648)] (.pyInt 305)
        2147483648 (by decide)).mp h).2 (by decide)⟩

/-- Claim C3: within a group, a non-denylisted tuple-valued tag survives
sanitization exactly when it was present, has exactly two components, and
both are int-like values in the signed 32-bit range. -/
theorem c3_rational_range :
    ∀ (entries : List (PyVal × PyVal)) (tagId : PyVal) (xs : List PyVal),
      isProblematicTag tagId = false →
      ((tagId, PyVal.pyTuple xs) ∈ cleanIfd entries ↔
        (tagId, PyVal.pyTuple xs) ∈ entries ∧
          (xs.length == 2 && xs.all pyIsIntLike) = true ∧
          xs.all (fun x => inInt32Range (pyIntOf x)) = true) := by
  intro entries tagId xs htag
  constructor
  · intro h
    rw [cleanIfd, List.mem_flatMap] at h
    obtain ⟨⟨q1, q2⟩, hqmem, hq⟩ := h
    obtain ⟨hid, _, hshape⟩ := cleanTag_inv hq
    simp only at hid
    subst hid
    rcases hshape with ⟨bs, hv, hp2⟩ | ⟨s, hv, hp2⟩ | ⟨m, hv, hp2, hr⟩ | ⟨b, hv, hp2⟩ |
      ⟨ys, hv, hp2, hx1, hx2⟩ <;> simp only at hv hp2
    · exact absurd hp2 (by simp)
    · exact absurd hp2 (by simp)
    · exact absurd hp2 (by simp)
    · exact absurd hp2 (by simp)
    · injection hp2 with hxy
      subst hxy
      subst hv
      exact ⟨hqmem, hx1, hx2⟩
  · rintro ⟨hmem, h1, h2⟩
    rw [cleanIfd, List.mem_flatMap]
    exact ⟨(tagId, .pyTuple xs), hmem, by simp [cleanTag, htag, h1, h2]⟩

/-- Witness for C3, with the two examples named by the claim: the rational
`(1, 0)` is kept and `(2147483648, 1)` is dropped. -/
theorem c3_witness :
    (PyVal.pyInt 33434, PyVal.pyTuple [.pyInt 1, .pyInt 0]) ∈
      cleanIfd [(PyVal.pyInt 33434, PyVal.pyTuple [.pyInt 1, .pyInt 0])] ∧
    (PyVal.pyInt 33434, PyVal.pyTuple [.pyInt 2147483648, .pyInt 1]) ∉
      cleanIfd [(PyVal.pyInt 33434, PyVal.pyTuple [.pyInt 2147483648, .pyInt 1])] :=
  ⟨(c3_rational_range [(PyVal.pyInt 33434, PyVal.pyTuple [.pyInt 1, .pyInt 0])]
      (.pyInt 33434) [.pyInt 1, .pyInt 0] (by decide)).mpr
      ⟨by decide, by decide, by decide⟩,
    fun h =>
      absurd ((c3_rational_range
        [(PyVal.pyInt 33434, PyVal.pyTuple [.pyInt 2147483648, .pyInt 1])]
        (.pyInt 33434) [.pyInt 2147483648, .pyInt 1] (by decide)).mp h).2.2
        (by decide)⟩

/-- Claim C9: for a non-denylisted byte-string tag the sanitizer runs the
permissive UTF-8 decode as a validity probe; the probe in fact always
succeeds, a failing probe would drop the tag, and a succeeding probe keeps
the tag with its original byte value unchanged. -/
theorem c9_bytes_probe :
    ∀ (tagId : PyVal) (bs : List Nat), isProblematicTag tagId = false →
      (∃ cs, pyDecodeUtf8 .ignore bs = some cs) ∧
      (pyDecodeUtf8 .ignore bs = none → cleanTag tagId (.pyBytes bs) = []) ∧
      (∀ cs, pyDecodeUtf8 .ignore bs = some cs →
        cleanTag tagId (.pyBytes bs) = [(tagId, .pyBytes bs)]) := by
  intro tagId bs htag
  refine ⟨pyDecodeUtf8_ignore_total bs, ?_, ?_⟩
  · intro hnone
    simp [cleanTag, htag, hnone]
  · intro cs hcs
    simp [cleanTag, htag, hcs]

/-- Witness for C9 at a byte value that is not valid UTF-8: the permissive
probe still succeeds and the tag is kept unchanged. -/
theorem c9_witness :
    cleanTag (.pyInt 37510) (.pyBytes [0xFF, 0x68]) =
      [(PyVal.pyInt 37510, PyVal.pyBytes [0xFF, 0x68])] :=
  (c9_bytes_probe (.pyInt 37510) [0xFF, 0x68] (by decide)).2.2 "h".data (by decide)

/-- Claim C8: the color-mode normalization maps alpha and
luminance-plus-alpha modes to RGBA; palette mode to RGBA or RGB according
to the transparency entry; every other non-RGB/RGBA mode to RGB; and
leaves the mode unchanged when it is already RGB or RGBA. -/
theorem c8_color_modes :
    ∀ t : Bool,
      normalizeMode "RGBA" t = "RGBA" ∧
      normalizeMode "LA" t = "RGBA" ∧
      normalizeMode "P" true = "RGBA" ∧
      normalizeMode "P" false = "RGB" ∧
      normalizeMode "RGB" t = "RGB" ∧
      (∀ m : String, m ≠ "RGBA" → m ≠ "LA" → m ≠ "P" → m ≠ "RGB" →
        normalizeMode m t = "RGB") := by
  intro t
  refine ⟨rfl, rfl, rfl, rfl, rfl, ?_⟩
  intro m h1 h2 h3 h4
  simp [normalizeMode, h1, h2, h3, h4]

/-- Witness for C8 at the CMYK mode, which is none of the special cases
and is sent to RGB. -/
theorem c8_witness : normalizeMode "CMYK" true = "RGB" :=
  (c8_color_modes true).2.2.2.2.2 "CMYK" (by decide) (by decide) (by decide) (by decide)

/-- The list worker of `convert_bytes_for_json` is the elementwise map. -/
theorem convertList_eq_map (xs : List PyVal) :
    convertList xs = xs.map convert_bytes_for_json := by
  induction xs with
  | nil => rfl
  | cons a as ih => simp [convertList, ih]

/-- The dict worker of `convert_bytes_for_json` stringifies keys and
recurses on values, entrywise. -/
theorem convertPairs_eq_map (e : List (PyVal × PyVal)) :
    convertPairs e =
      e.map (fun p => (.pyStr (pyStrFn p.1), convert_bytes_for_json p.2)) := by
  induction e with
  | nil => rfl
  | cons a as ih =>
    obtain ⟨k, v⟩ := a
    simp [convertPairs, ih]

/-- Claim C5: `convert_bytes_for_json` decodes valid-UTF-8 bytes to their
text (bytes of "hello" become the text "hello"), renders invalid bytes as
the length-and-hex-preview placeholder (truncated to 50 hex characters),
passes numbers, text, booleans and `None` through unchanged, recurses
through mappings (stringifying keys) and sequences, and stringifies
anything else. -/
theorem c5_convert_bytes :
    (∀ bs cs, pyDecodeUtf8 .strict bs = some cs →
      convert_bytes_for_json (.pyBytes bs) = .pyStr (String.mk cs)) ∧
    (∀ bs, pyDecodeUtf8 .strict bs = none →
      convert_bytes_for_json (.pyBytes bs) = .pyStr (bytesPlaceholder bs) ∧
      ((bytesHex bs).take 50).length ≤ 50) ∧
    convert_bytes_for_json (.pyBytes (utf8Encode "hello")) = .pyStr "hello" ∧
    (∀ n, convert_bytes_for_json (.pyInt n) = .pyInt n) ∧
    (∀ f, convert_bytes_for_json (.pyFloat f) = .pyFloat f) ∧
    (∀ s, convert_bytes_for_json (.pyStr s) = .pyStr s) ∧
    (∀ b, convert_bytes_for_json (.pyBool b) = .pyBool b) ∧
    convert_bytes_for_json .pyNone = .pyNone ∧
    (∀ e, convert_bytes_for_json (.pyDict e) =
      .pyDict (e.map (fun p => (.pyStr (pyStrFn p.1), convert_bytes_for_json p.2)))) ∧
    (∀ xs, convert_bytes_for_json (.pyList xs) =
      .pyList (xs.map convert_bytes_for_json)) ∧
    (∀ xs, convert_bytes_for_json (.pyTuple xs) =
      .pyList (xs.map convert_bytes_for_json)) ∧
    (∀ s, convert_bytes_for_json (.pyOther s) = .pyStr s) := by
  refine ⟨?_, ?_, by decide, fun n => rfl, fun f => rfl, fun s => rfl, fun b => rfl, rfl,
    ?_, ?_, ?_, fun s => rfl⟩
  · intro bs cs hcs
    simp [convert_bytes_for_json, hcs]
  · intro bs hbs
    exact ⟨by simp [convert_bytes_for_json, hbs], by simp⟩
  · intro e
    simp [convert_bytes_for_json, convertPairs_eq_map]
  · intro xs
    simp [convert_bytes_for_json, convertList_eq_map]
  · intro xs
    simp [convert_bytes_for_json, convertList_eq_map]

/-- Witness for C5: a decodable and an undecodable byte string. -/
theorem c5_witness :
    convert_bytes_for_json (.pyBytes [104, 105]) = .pyStr "hi" ∧
    convert_bytes_for_json (.pyBytes [0xC3, 0x28]) = .pyStr "<bytes:2:c328>" :=
  ⟨c5_convert_bytes.1 [104, 105] "hi".data (by decide),
    (c5_convert_bytes.2.1 [0xC3, 0x28] (by decide)).1⟩

mutual

theorem jsonSafe_convert : ∀ v : PyVal, jsonSafe (convert_bytes_for_json v) = true := by
  intro v
  cases v with
  | pyBytes bs =>
    cases h : pyDecodeUtf8 .strict bs <;> simp [convert_bytes_for_json, h, jsonSafe]
  | pyDict e =>
    simp only [convert_bytes_for_json, jsonSafe]
    exact jsonSafe_convertPairs e
  | pyList xs =>
    simp only [convert_bytes_for_json, jsonSafe]
    exact jsonSafe_convertList xs
  | pyTuple xs =>
    simp only [convert_bytes_for_json, jsonSafe]
    exact jsonSafe_convertList xs
  | pyInt n => rfl
  | pyFloat f => rfl
  | pyStr s => rfl
  | pyBool b => rfl
  | pyNone => rfl
  | pyOther s => rfl

theorem jsonSafe_convertList : ∀ xs : List PyVal, jsonSafeList (convertList xs) = true := by
  intro xs
  cases xs with
  | nil => rfl
  | cons a as =>
    simp only [convertList, jsonSafeList, Bool.and_eq_true]
    exact ⟨jsonSafe_convert a, jsonSafe_convertList as⟩

theorem jsonSafe_convertPairs :
    ∀ e : List (PyVal × PyVal), jsonSafePairs (convertPairs e) = true := by
  intro e
  cases e with
  | nil => rfl
  | cons a r =>
    obtain ⟨k, v⟩ := a
    simp only [convertPairs, jsonSafePairs, Bool.and_eq_true]
    exact ⟨⟨trivial, jsonSafe_convert v⟩, jsonSafe_convertPairs r⟩

end

/-- Claim C10: the result of `convert_bytes_for_json` contains no byte
string at any depth — every value in it, recursively through mappings and
sequences, is a string, integer, float, boolean or `None`, and mapping
keys are strings — so the result is JSON-serializable. -/
theorem c10_result_json_safe : ∀ v : PyVal, jsonSafe (convert_bytes_for_json v) = true :=
  jsonSafe_convert

/-- Counterexample to claim C4 as stated.  The tree below is a sanitizer
output (indeed a fixed point of `clean_exif_data`): its `Exif` entry is a
byte string passed through by the top-level basic-value rule, and its
`0th` group holds a usable `DateTime` (306) field.  The first probe then
evaluates `36867 in b"x"`, which raises `ValueError` (the id exceeds
255), the blanket `except` fires, and the resolver returns `None` — while
the first field in the claimed order that decodes to a usable string is
the `0th` `DateTime`, whose value the claim says is returned. -/
theorem c4_counterexample :
    clean_exif_data
        (some [("Exif", .pyBytes [120]),
               ("0th", .pyDict [(.pyInt 306, .pyBytes (utf8Encode "2020:01:01 10:00:00"))])]) =
      some [("Exif", .pyBytes [120]),
            ("0th", .pyDict [(.pyInt 306, .pyBytes (utf8Encode "2020:01:01 10:00:00"))])] ∧
    get_creation_datetime_from_exif
        (some [("Exif", .pyBytes [120]),
               ("0th", .pyDict [(.pyInt 306, .pyBytes (utf8Encode "2020:01:01 10:00:00"))])]) =
      none ∧
    spec_timestamp_resolver
        (some [("Exif", .pyBytes [120]),
               ("0th", .pyDict [(.pyInt 306, .pyBytes (utf8Encode "2020:01:01 10:00:00"))])]) =
      some "2020:01:01 10:00:00" :=
  ⟨by decide, by decide, by decide⟩

/-- On trees whose probed group names map to mappings, one probe of the
resolver loop agrees with the claimed field lookup. -/
theorem probeOne_eq_spec {t : ExifTree} {name : String} (tagId : Int)
    (h : ∀ p ∈ t, p.1 = name → isDictVal p.2 = true) :
    probeOne t name tagId =
      match (specFieldLookup t name tagId).bind usableString with
      | some s => .found s
      | none => .nothing := by
  cases hf : t.find? (fun p => p.1 == name) with
  | none => simp [probeOne, specFieldLookup, hf]
  | some q =>
    obtain ⟨qk, qv⟩ := q
    have hqmem : (qk, qv) ∈ t := List.mem_of_find?_eq_some hf
    have hqk : qk = name := by
      have hb := List.find?_some hf
      simpa using hb
    have hdict := h _ hqmem hqk
    cases qv with
    | pyDict g =>
      cases hany : g.any (fun p => pyEqInt p.1 tagId) with
      | false =>
        have hfind : g.find? (fun p => pyEqInt p.1 tagId) = none := by
          rw [List.find?_eq_none]
          intro a ha hpa
          have htrue : g.any (fun p => pyEqInt p.1 tagId) = true :=
            List.any_eq_true.mpr ⟨a, ha, hpa⟩
          rw [hany] at htrue
          exact Bool.false_ne_true htrue
        simp [probeOne, pyContains, hany, specFieldLookup, hf, hfind]
      | true =>
        cases hfind : g.find? (fun p => pyEqInt p.1 tagId) with
        | none =>
          obtain ⟨a, ha, hpa⟩ := List.any_eq_true.mp hany
          rw [List.find?_eq_none] at hfind
          exact absurd hpa (hfind a ha)
        | some r =>
          cases husable : usableString r.2 <;>
            simp [probeOne, pyContains, hany, pyGetItem, hfind, specFieldLookup, hf, husable]
    | pyBytes bs => exact absurd hdict (by simp [isDictVal])
    | pyStr s => exact absurd hdict (by simp [isDictVal])
    | pyInt n => exact absurd hdict (by simp [isDictVal])
    | pyBool b => exact absurd hdict (by simp [isDictVal])
    | pyFloat f => exact absurd hdict (by simp [isDictVal])
    | pyNone => exact absurd hdict (by simp [isDictVal])
    | pyTuple xs => exact absurd hdict (by simp [isDictVal])
    | pyList xs => exact absurd hdict (by simp [isDictVal])
    | pyOther s => exact absurd hdict (by simp [isDictVal])

/-- Claim C4, amended: on `None` the resolver returns `None`, and on a
sanitized tree whose probed group names (`Exif` and `0th`), when present,
map to mappings — the shape the data model prescribes for SanitizedExif —
the resolver returns exactly the value of the first field in the fixed
order `DateTimeOriginal`, `DateTimeDigitized`, `DateTime` that decodes to
a non-empty stripped string different from the placeholder, and `None`
when no field yields a usable string (`spec_timestamp_resolver` states
that wording).  The amendment excludes trees where a probed name maps to
a non-mapping value: there the membership test raises and the code
returns `None` (see `c4_counterexample`). -/
theorem c4_resolver_matches_spec :
    get_creation_datetime_from_exif none = spec_timestamp_resolver none ∧
    ∀ t : ExifTree, (∀ p ∈ t, (p.1 = "Exif" ∨ p.1 = "0th") → isDictVal p.2 = true) →
      get_creation_datetime_from_exif (some t) = spec_timestamp_resolver (some t) := by
  constructor
  · rfl
  · intro t ht
    have hExif : ∀ p ∈ t, p.1 = "Exif" → isDictVal p.2 = true :=
      fun p hp h => ht p hp (.inl h)
    have h0th : ∀ p ∈ t, p.1 = "0th" → isDictVal p.2 = true :=
      fun p hp h => ht p hp (.inr h)
    cases t with
    | nil => rfl
    | cons a as =>
      have e1 := probeOne_eq_spec 36867 hExif
      have e2 := probeOne_eq_spec 36868 hExif
      have e3 := probeOne_eq_spec 306 h0th
      show resolveLoop (a :: as) datetime_tags = _
      rw [datetime_tags]
      rw [resolveLoop, e1]
      cases h1 : (specFieldLookup (a :: as) "Exif" 36867).bind usableString with
      | some s => simp [spec_timestamp_resolver, h1, Option.orElse]
      | none =>
        rw [resolveLoop, e2]
        cases h2 : (specFieldLookup (a :: as) "Exif" 36868).bind usableString with
        | some s => simp [spec_timestamp_resolver, h1, h2, Option.orElse]
        | none =>
          rw [resolveLoop, e3]
          cases h3 : (specFieldLookup (a :: as) "0th" 306).bind usableString with
          | some s => simp [spec_timestamp_resolver, h1, h2, h3, Option.orElse]
          | none => simp [spec_timestamp_resolver, h1, h2, h3, Option.orElse, resolveLoop]

/-- Witness for C4 at a concrete well-shaped tree holding both an original
capture field (2020) and a modified field (2021): the resolver agrees with
the spec wording and returns the capture field's value. -/
theorem c4_witness :
    get_creation_datetime_from_exif
        (some [("Exif", .pyDict [(.pyInt 36867, .pyBytes (utf8Encode "2020:01:01 10:00:00"))]),
               ("0th", .pyDict [(.pyInt 306, .pyBytes (utf8Encode "2021:05:05 05:05:05"))])]) =
      spec_timestamp_resolver
        (some [("Exif", .pyDict [(.pyInt 36867, .pyBytes (utf8Encode "2020:01:01 10:00:00"))]),
               ("0th", .pyDict [(.pyInt 306, .pyBytes (utf8Encode "2021:05:05 05:05:05"))])]) ∧
    spec_timestamp_resolver
        (some [("Exif", .pyDict [(.pyInt 36867, .pyBytes (utf8Encode "2020:01:01 10:00:00"))]),
               ("0th", .pyDict [(.pyInt 306, .pyBytes (utf8Encode "2021:05:05 05:05:05"))])]) =
      some "2020:01:01 10:00:00" :=
  ⟨c4_resolver_matches_spec.2
      [("Exif", .pyDict [(.pyInt 36867, .pyBytes (utf8Encode "2020:01:01 10:00:00"))]),
       ("0th", .pyDict [(.pyInt 306, .pyBytes (utf8Encode "2021:05:05 05:05:05"))])]
      (by decide),
    by decide⟩
